import Mathlib

/-!
Verification development for the conversational ordering backend
(Chimuelos_AI).  The definitions below are a shallow embedding of the
Python sources:

* `app/utils/db_utils.py` — `is_in_human_mode`, `save_message`,
  `get_user_session_message_count`, `process_order` and the confirmation
  formatter;
* `app/api/whatsapp_server.py` — the legacy `process_order` with the
  5-minute duplicate check;
* `app/api/whatsapp_api.py` — the agent cache (`cleanup_inactive_agents`)
  and the webhook control flow around it;
* `app/services/test_agent.py` — `validate_order_items` and the active
  product dictionary.

Database rows are Lean structures, the database itself an in-memory
record of row lists.  Timestamps are integer seconds; `NOW()` /
`datetime.now` becomes an explicit `now : Int` argument.  `uuid.uuid4`
session tokens are modelled as opaque `Nat` tokens minted from a
monotone counter `nextSid` (the source relies on uuid4 freshness, which
the counter makes exact).  Exceptions raised by database statements are
modelled by failure oracles saying which statement raises; `try/except`
plus `session.rollback()` becomes "on error, return the original
database state"; a Python function that falls off the end returns
`none`.
-/

/-- A catalog product row (table hatsu.productos, app/database/database.py). -/
structure Producto where
  id : Nat
  nombre : String
  precio_base : Int
  activo : Bool
  deriving Repr, DecidableEq

/-- A store location row (hatsu.locales). -/
structure Local where
  id : Nat
  nombre : String
  activo : Bool
  deriving Repr, DecidableEq

/-- A user row (hatsu.usuarios).  `direccion` exists for the legacy
whatsapp_server schema generation; db_utils never writes it. -/
structure Usuario where
  id : Nat
  telefono : String
  origen : String
  nombre : Option String
  direccion : Option String
  fecha_registro : Int
  deriving Repr, DecidableEq

/-- An order row (hatsu.ordenes).  Fields that an INSERT does not
mention are `none` (the legacy whatsapp_server insert sets neither
origen, observaciones, direccion nor horario_entrega). -/
structure Orden where
  id : Nat
  usuario_id : Nat
  local_id : Option Nat
  fecha_hora : Int
  estado : String
  monto_total : Option Int
  medio_pago : Option String
  is_takeaway : Bool
  origen : Option String
  observaciones : Option String
  direccion : Option String
  horario_entrega : Option String
  deriving Repr, DecidableEq

/-- An order line-item row (hatsu.orden_detalle).  `producto_id` is the
result of the name-to-id subselect and may be NULL when the name does
not resolve (db_utils variant has no activo filter). -/
structure OrdenDetalle where
  id : Nat
  orden_id : Nat
  producto_id : Option Nat
  cantidad : Int
  precio_unitario : Int
  subtotal : Int
  deriving Repr, DecidableEq

/-- A conversation ledger row (hatsu.mensajes) exactly as inserted by
save_message in app/utils/db_utils.py. -/
structure Mensaje where
  id : Nat
  usuario_id : Nat
  orden_id : Option Nat
  rol : String
  mensaje : String
  timestamp : Int
  canal : String
  intervencion_humana : Bool
  intervencion_humana_historial : Bool
  leido : Bool
  media_url : Option String
  tokens : Option Nat
  sesion_id : Option Nat
  orden_creada : Bool
  deriving Repr, DecidableEq

/-- The database state: one list per table, a fresh-row-id counter and
the fresh-session-token counter standing in for uuid4. -/
structure DB where
  productos : List Producto
  locales : List Local
  usuarios : List Usuario
  ordenes : List Orden
  orden_detalle : List OrdenDetalle
  mensajes : List Mensaje
  nextRowId : Nat
  nextSid : Nat
  deriving Repr, DecidableEq

/-- is_in_human_mode (db_utils.py lines 493-520): EXISTS a message of
the user with intervencion_humana = true and timestamp > NOW() - 2
hours.  The whole body sits in a try/except returning False, modelled
by the `readFails` flag. -/
def is_in_human_mode (db : DB) (now : Int) (usuario_id : Nat) (readFails : Bool) : Bool :=
  if readFails then false
  else db.mensajes.any (fun m =>
    m.usuario_id == usuario_id && m.intervencion_humana &&
      decide (now - 2 * 3600 < m.timestamp))

/-- One step of the latest-user-message scan: keeps the user-role
message of the given user with the greatest timestamp, later rows
winning ties (ORDER BY timestamp DESC LIMIT 1). -/
def luStep (usuario_id : Nat) (acc : Option Mensaje) (m : Mensaje) : Option Mensaje :=
  if m.usuario_id == usuario_id && m.rol == "usuario" then
    match acc with
    | none => some m
    | some a => if a.timestamp ≤ m.timestamp then some m else some a
  else acc

/-- The query SELECT sesion_id, timestamp FROM mensajes WHERE
usuario_id = :usuario_id AND rol = 'usuario' ORDER BY timestamp DESC
LIMIT 1 (db_utils.py lines 558-565). -/
def lastUserMessage (db : DB) (usuario_id : Nat) : Option Mensaje :=
  db.mensajes.foldl (luStep usuario_id) none

/-- The session-resolution logic of save_message (db_utils.py lines
556-584): reuse the last user message's sesion_id when it is less than
12 hours old and truthy, otherwise none (a fresh uuid is minted by the
caller).  Returning `m.sesion_id` directly covers the `and row[0]`
truthiness test, since a NULL sesion_id yields `none` here as well. -/
def resolve_session (db : DB) (now : Int) (usuario_id : Nat) : Option Nat :=
  match lastUserMessage db usuario_id with
  | some m => if now - m.timestamp < 12 * 3600 then m.sesion_id else none
  | none => none

/-- save_message (db_utils.py lines 522-621).  The flag defaults to the
current human-mode state; the session id is resolved against the
ledger; the row is appended with timestamp CURRENT_TIMESTAMP = `now`.
`hmReadFails` makes the embedded is_in_human_mode call raise (caught
inside it); `sessReadFails` makes the last-message query raise, which
aborts the whole function: rollback and return None. -/
def save_message (db : DB) (now : Int) (usuario_id : Nat) (mensaje rol : String)
    (orden_id : Option Nat) (canal : String) (intervencion_humana : Bool)
    (media_url : Option String) (tokens : Option Nat) (orden_creada : Bool)
    (hmReadFails sessReadFails : Bool) : Option Nat × DB :=
  let flag := if intervencion_humana then true
              else is_in_human_mode db now usuario_id hmReadFails
  if sessReadFails then (none, db)
  else
    match resolve_session db now usuario_id with
    | some s =>
      let msg : Mensaje := ⟨db.nextRowId, usuario_id, orden_id, rol, mensaje, now, canal,
        flag, flag, false, media_url, tokens, some s, orden_creada⟩
      (some db.nextRowId,
       { db with mensajes := db.mensajes ++ [msg], nextRowId := db.nextRowId + 1 })
    | none =>
      let msg : Mensaje := ⟨db.nextRowId, usuario_id, orden_id, rol, mensaje, now, canal,
        flag, flag, false, media_url, tokens, some db.nextSid, orden_creada⟩
      (some db.nextRowId,
       { db with
         mensajes := db.mensajes ++ [msg]
         nextRowId := db.nextRowId + 1
         nextSid := db.nextSid + 1 })

/-- get_user_session_message_count (db_utils.py lines 727-764): the
count of user-role messages stamped with the currently active session
id, `(0, none)` when no session is active. -/
def get_user_session_message_count (db : DB) (now : Int) (usuario_id : Nat) :
    Nat × Option Nat :=
  match resolve_session db now usuario_id with
  | none => (0, none)
  | some s =>
    ((db.mensajes.filter (fun m =>
        m.usuario_id == usuario_id && m.rol == "usuario" && m.sesion_id == some s)).length,
     some s)

/-- Agent cache (whatsapp_api.py): usuario_id paired with the
last_seen `time.time()` value; the TestAIAgent object itself carries no
state the claims mention and is abstracted away. -/
abbrev AgentMap := List (Nat × Int)

/-- 24 hours in seconds (whatsapp_api.py line 45). -/
def INACTIVITY_THRESHOLD : Int := 60 * 60 * 24

/-- cleanup_inactive_agents (whatsapp_api.py lines 47-64): delete every
entry with now - last_seen > INACTIVITY_THRESHOLD. -/
def cleanup_inactive_agents (agents : AgentMap) (now : Int) : AgentMap :=
  agents.filter (fun e => decide (now - e.2 ≤ INACTIVITY_THRESHOLD))

/-- The get-or-create-and-touch step of whatsapp_webhook (whatsapp_api.py
lines 282-292): an existing entry has its last_seen refreshed, a missing
one is created with last_seen = now. -/
def touchAgent (agents : AgentMap) (usuario_id : Nat) (now : Int) : AgentMap :=
  if agents.any (fun e => e.1 == usuario_id) then
    agents.map (fun e => if e.1 == usuario_id then (e.1, now) else e)
  else agents ++ [(usuario_id, now)]

/-- The four terminal paths of whatsapp_webhook that follow a processed
inbound message (whatsapp_api.py lines 309-403): human-intervention
request, human mode already active, normal reply, and agent error. -/
inductive WebhookPath
  | humanRequest
  | humanModeActive
  | normalReply
  | agentError
  deriving Repr, DecidableEq

/-- Effect of one processed inbound message on the agent cache: the
agent is fetched-or-created and touched, and each of the four terminal
paths ends with a cleanup_inactive_agents sweep (whatsapp_api.py lines
311, 316, 385 and 402) — there is no background timer. -/
def webhook_agent_effect (agents : AgentMap) (usuario_id : Nat) (now : Int) :
    WebhookPath → AgentMap
  | .humanRequest => cleanup_inactive_agents (touchAgent agents usuario_id now) now
  | .humanModeActive => cleanup_inactive_agents (touchAgent agents usuario_id now) now
  | .normalReply => cleanup_inactive_agents (touchAgent agents usuario_id now) now
  | .agentError => cleanup_inactive_agents (touchAgent agents usuario_id now) now

/-- Well-formedness of stored session tokens: every ledger row carries a
token already minted (below the counter).  Holds for every database
populated through save_message. -/
def SesWF (db : DB) : Prop :=
  ∀ m ∈ db.mensajes, ∃ k, m.sesion_id = some k ∧ k < db.nextSid

/-- A line item of the order payload embedded after the #ORDER: marker.
Fields are Options: `none` models a missing JSON key (the validator uses
.get defaults, the persisters use direct indexing that raises KeyError). -/
structure PayloadItem where
  product : Option String
  quantity : Option Int
  precio_unitario : Option Int
  subtotal : Option Int
  deriving Repr, DecidableEq

/-- The order payload dictionary parsed from the #ORDER: JSON. -/
structure OrderData where
  total : Option Int
  items : Option (List PayloadItem)
  is_takeaway : Option Bool
  medio_pago : Option String
  observaciones : Option String
  direccion : Option String
  horario_entrega : Option String
  deriving Repr, DecidableEq

/-- The text handed to process_order: either it lacks the #ORDER:
marker (the function falls through and returns Python None), the JSON
after the marker fails to parse, or it parses to a payload. -/
inductive OrderText
  | noMarker
  | badJson
  | withOrder (d : OrderData)
  deriving Repr, DecidableEq

/-- Character-level removal of every occurrence of the pattern
whatsapp: from a string, scanning left to right. -/
def cleanPhoneChars : List Char → List Char
  | 'w' :: 'h' :: 'a' :: 't' :: 's' :: 'a' :: 'p' :: 'p' :: ':' :: rest => cleanPhoneChars rest
  | c :: rest => c :: cleanPhoneChars rest
  | [] => []

/-- phone.replace("whatsapp:", ""), spelled over the character list so
that the kernel can evaluate it. -/
def cleanPhone (phone : String) : String := String.mk (cleanPhoneChars phone.data)

/-- Prefix test over character lists (String.startsWith, spelled so the
kernel can evaluate it). -/
def isPrefixChars : List Char → List Char → Bool
  | [], _ => true
  | _ :: _, [] => false
  | p :: ps, c :: cs => p == c && isPrefixChars ps cs

/-- str.lower(), spelled over the character list so that the kernel can
evaluate it. -/
def toLowerStr (s : String) : String := String.mk (s.data.map Char.toLower)

/-- The active-product dictionary built by
TestAIAgent._build_active_products_dict from the menu that
get_menu_from_db assembled out of the productos rows with activo =
true: product name mapped to its price. -/
def active_products (productos : List Producto) : List (String × Int) :=
  (productos.filter (fun p => p.activo)).map (fun p => (p.nombre, p.precio_base))

/-- Dictionary lookup: later entries overwrite earlier ones, as when the
Python dict is built by iteration. -/
def lookupProduct (active : List (String × Int)) (name : String) : Option Int :=
  active.foldl (fun acc e => if e.1 == name then some e.2 else acc) none

/-- Validation error strings of TestAIAgent.validate_order_items (the
Python texts wrap the product name in single quotes, elided here). -/
def msgNoItems : String := "La orden no contiene items"

/-- Error for a payload without the observaciones key. -/
def msgNoObservaciones : String := "La orden debe incluir el campo observaciones"

/-- Error for a payload without the horario_entrega key. -/
def msgNoHorario : String := "La orden debe incluir el campo horario_entrega"

/-- Error for an item whose product name is missing or empty. -/
def msgNoName : String := "Hay un item sin nombre de producto"

/-- Error naming a product that is absent from the active catalog. -/
def msgNotActive (p : String) : String :=
  "El producto " ++ p ++ " no existe o no esta activo"

/-- Error naming a product whose submitted unit price is stale. -/
def msgBadPrice (p : String) : String :=
  "El precio del producto " ++ p ++ " no coincide con el precio actual"

/-- Error naming a product whose subtotal is inconsistent. -/
def msgBadSubtotal (p : String) : String :=
  "El subtotal del producto " ++ p ++ " no es correcto"

/-- The per-item for-loop of validate_order_items (test_agent.py lines
76-95): name present and nonempty, name in the active dictionary,
submitted price equal to the catalog price, submitted subtotal equal to
catalog price times quantity.  The first failing item stops the loop. -/
def validateItemsLoop (active : List (String × Int)) : List PayloadItem → Bool × String
  | [] => (true, "")
  | item :: rest =>
    let pname := item.product.getD ""
    if pname == "" then (false, msgNoName)
    else match lookupProduct active pname with
      | none => (false, msgNotActive pname)
      | some expected =>
        if item.precio_unitario.getD 0 != expected then (false, msgBadPrice pname)
        else if item.subtotal.getD 0 != expected * item.quantity.getD 0 then
          (false, msgBadSubtotal pname)
        else validateItemsLoop active rest

/-- TestAIAgent.validate_order_items (test_agent.py lines 56-97):
presence of the items, observaciones and horario_entrega keys, then the
per-item loop.  A falsy (empty) order_data dict has no items key, so it
is covered by the first case. -/
def validate_order_items (active : List (String × Int)) (d : OrderData) : Bool × String :=
  match d.items with
  | none => (false, msgNoItems)
  | some its =>
    match d.observaciones with
    | none => (false, msgNoObservaciones)
    | some _ =>
      match d.horario_entrega with
      | none => (false, msgNoHorario)
      | some _ => validateItemsLoop active its

/-- The failure oracle for db_utils.process_order: which database
statements raise.  detalleIns is indexed by the position of the item
being inserted. -/
structure Oracle where
  userQ : Bool
  nameQ : Bool
  orderIns : Bool
  deliveryQ : Bool
  montoUpd : Bool
  detalleIns : Nat → Bool
  commitQ : Bool

/-- The oracle under which no database statement raises. -/
def noFail : Oracle :=
  ⟨false, false, false, false, false, fun _ => false, false⟩

/-- The get-or-create-user CTE shared by both process_order variants:
return the existing (telefono, origen) row, otherwise insert a fresh
one; the second component is is_new. -/
def getOrCreateUser (db : DB) (now : Int) (phone origen : String) : Nat × Bool × DB :=
  match db.usuarios.find? (fun u => u.telefono == phone && u.origen == origen) with
  | some u => (u.id, false, db)
  | none =>
    (db.nextRowId, true,
     { db with
       usuarios := db.usuarios ++ [⟨db.nextRowId, phone, origen, none, none, now⟩]
       nextRowId := db.nextRowId + 1 })

/-- The INSERT INTO ordenes of db_utils.process_order (lines 296-337):
monto_total is the payload total as submitted, is_takeaway defaults to
True, direccion is stored only for delivery, horario_entrega defaults
to Entrega inmediata, local_id comes from a name subselect without an
activo filter. -/
def insertOrderRow (db : DB) (now : Int) (uid : Nat) (origen : String) (d : OrderData) :
    Nat × DB :=
  let tk := d.is_takeaway.getD true
  let o : Orden := ⟨db.nextRowId, uid,
    (db.locales.find? (fun l => l.nombre == "Vicente Lopez")).map (fun l => l.id),
    now, "pendiente", d.total, d.medio_pago, tk, some origen, d.observaciones,
    (if tk then none else d.direccion),
    some (d.horario_entrega.getD "Entrega inmediata")⟩
  (db.nextRowId, { db with ordenes := db.ordenes ++ [o], nextRowId := db.nextRowId + 1 })

/-- The synthetic Delivery line item appended by db_utils.process_order. -/
def deliveryItem (precio : Int) : PayloadItem :=
  ⟨some "Delivery", some 1, some precio, some precio⟩

/-- UPDATE ordenes SET monto_total = :monto_total WHERE id = :orden_id. -/
def updateMonto (db : DB) (oid : Nat) (nuevo : Int) : DB :=
  { db with ordenes := db.ordenes.map (fun o =>
      if o.id == oid then { o with monto_total := some nuevo } else o) }

/-- The delivery-fee augmentation of db_utils.process_order (lines
339-370): when the order is not takeaway and a product named delivery
(case-insensitively) exists, append the synthetic item to the payload,
add its price to the payload total and rewrite the persisted
monto_total.  Direct indexing of order_data["items"] and
order_data["total"] raises KeyError when either key is absent. -/
def deliveryPhase (o : Oracle) (db : DB) (oid : Nat) (d : OrderData) :
    Except String (OrderData × DB) :=
  if d.is_takeaway.getD true then .ok (d, db)
  else if o.deliveryQ then .error "db error: delivery select"
  else match db.productos.find? (fun p => toLowerStr p.nombre == "delivery") with
    | none => .ok (d, db)
    | some p =>
      match d.items, d.total with
      | some its, some t =>
        let d2 := { d with
          items := some (its ++ [deliveryItem p.precio_base])
          total := some (t + p.precio_base) }
        if o.montoUpd then .error "db error: monto update"
        else .ok (d2, updateMonto db oid (t + p.precio_base))
      | _, _ => .error "KeyError"

/-- The per-item INSERT INTO orden_detalle loop of db_utils.process_order
(lines 372-399): the producto_id subselect has no activo filter and may
yield NULL; direct indexing of the item fields raises KeyError on a
missing key. -/
def insertDetalles (o : Oracle) (db : DB) (oid : Nat) :
    List PayloadItem → Nat → Except String DB
  | [], _ => .ok db
  | item :: rest, idx =>
    if o.detalleIns idx then .error "db error: detalle insert"
    else match item.product, item.quantity, item.precio_unitario, item.subtotal with
      | some pname, some q, some pu, some st =>
        insertDetalles o
          { db with
            orden_detalle := db.orden_detalle ++
              [⟨db.nextRowId, oid,
                (db.productos.find? (fun p => p.nombre == pname)).map (fun p => p.id),
                q, pu, st⟩]
            nextRowId := db.nextRowId + 1 }
          oid rest (idx + 1)
      | _, _, _, _ => .error "KeyError"

/-- Insert a dot after every third character of a reversed digit list,
mirroring f-string thousands grouping with the comma swapped for a dot. -/
def dotGroupRev : List Char → Nat → List Char
  | [], _ => []
  | c :: cs, k =>
    if k % 3 == 0 && k != 0 then ('.' : Char) :: c :: dotGroupRev cs (k + 1)
    else c :: dotGroupRev cs (k + 1)

/-- Thousands-grouped rendering of a natural number. -/
def formatMilesNat (n : Nat) : String :=
  String.mk ((dotGroupRev (toString n).toList.reverse 0).reverse)

/-- Thousands-grouped rendering of an integer amount, as produced by
f-string grouping with dots for separators. -/
def formatMiles (n : Int) : String :=
  if n < 0 then "-" ++ formatMilesNat n.natAbs else formatMilesNat n.natAbs

/-- The confirmation builder _format_order_confirmation of db_utils.py
(lines 201-245): the displayed total is recomputed as the sum of the
item subtotals; the default-delivery horario line and the address line
appear conditionally; emojis of the source text are elided.  Direct
item indexing is safe here because the caller has already inserted
every item. -/
def format_order_confirmation (d : OrderData) : String :=
  let its := d.items.getD []
  let itemLines := its.map (fun item =>
    toString (item.quantity.getD 0) ++ "x " ++ item.product.getD "" ++
      " - $" ++ formatMiles (item.subtotal.getD 0))
  let total := (its.map (fun item => item.subtotal.getD 0)).sum
  let deliveryMode := if d.is_takeaway.getD false then "Retiro en local" else "Delivery"
  let horario := d.horario_entrega.getD "Entrega inmediata"
  let l1 := ["Pedido confirmado!\n", "\nDetalles del pedido:"] ++ itemLines ++
    ["Total: $" ++ formatMiles total, "\nModo de entrega: " ++ deliveryMode]
  let l2 := if horario != "Entrega inmediata"
    then l1 ++ ["\nHorario de entrega: " ++ horario] else l1
  let l3 := if !(d.is_takeaway.getD false) && d.direccion.getD "" != ""
    then l2 ++ ["\nDireccion de entrega: " ++ d.direccion.getD ""] else l2
  String.intercalate "\n" (l3 ++ ["Medio de pago: " ++ (d.medio_pago.getD "pendiente").capitalize])

/-- Tail of db_utils.process_order after the order row was inserted:
delivery augmentation, detail inserts, commit. -/
def afterOrderIns (o : Oracle) (d : OrderData) (isNew : Bool) (oid : Nat) (db2 : DB) :
    Except String ((Bool × String × Nat) × DB) :=
  match deliveryPhase o db2 oid d with
  | .error e => .error e
  | .ok (d2, db3) =>
    match insertDetalles o db3 oid (d2.items.getD []) 0 with
    | .error e => .error e
    | .ok db4 =>
      if o.commitQ then .error "db error: commit"
      else .ok ((isNew, format_order_confirmation d2, oid), db4)

/-- Tail of db_utils.process_order after the user upsert: optional name
fetch, order insert, then the tail above. -/
def afterUser (o : Oracle) (d : OrderData) (now : Int) (origen : String)
    (uid : Nat) (isNew : Bool) (db1 : DB) : Except String ((Bool × String × Nat) × DB) :=
  if !isNew && o.nameQ then .error "db error: user fetch"
  else if o.orderIns then .error "db error: order insert"
  else
    let r2 := insertOrderRow db1 now uid origen d
    afterOrderIns o d isNew r2.1 r2.2

/-- The body of db_utils.process_order once the payload is parsed:
user upsert, optional name fetch, order insert, delivery augmentation,
detail inserts, commit.  Any raising statement short-circuits. -/
def process_order_body (o : Oracle) (d : OrderData) (db : DB) (now : Int)
    (phone origen : String) : Except String ((Bool × String × Nat) × DB) :=
  if o.userQ then .error "db error: user upsert"
  else
    let r1 := getOrCreateUser db now (cleanPhone phone) origen
    afterUser o d now origen r1.1 r1.2.1 r1.2.2

/-- process_order of app/utils/db_utils.py (lines 247-411).  Result is
(success, is_new_user, confirmation_or_error, order_id) wrapped in an
outer Option: text without the #ORDER: marker makes the Python function
fall through and return None.  On any exception the transaction rolls
back: the original database is returned together with an error tuple. -/
def process_order (o : Oracle) (text : OrderText) (db : DB) (now : Int)
    (phone origen : String) : Option (Bool × Bool × String × Option Nat) × DB :=
  match text with
  | .noMarker => (none, db)
  | .badJson => (some (false, false, "Expecting value", none), db)
  | .withOrder d =>
    match process_order_body o d db now phone origen with
    | .ok r => (some (true, r.1.1, r.1.2.1, some r.1.2.2), r.2)
    | .error e => (some (false, false, e, none), db)

/-- The gate formed by TestAIAgent.process_message (lines 245-266) and
whatsapp_api.whatsapp_webhook (lines 342-358): an order payload embedded
in the agent reply is validated first; on failure the #ORDER: marker is
stripped from the reply, so process_order is never invoked and the
database is untouched. -/
def order_pipeline (o : Oracle) (active : List (String × Int)) (d : OrderData)
    (db : DB) (now : Int) (phone origen : String) :
    Option (Bool × Bool × String × Option Nat) × DB :=
  if (validate_order_items active d).1 then
    process_order o (.withOrder d) db now phone origen
  else (none, db)

/-- The failure oracle for the legacy whatsapp_server.process_order. -/
structure ServerOracle where
  dupQ : Bool
  userQ : Bool
  userDataQ : Bool
  localQ : Bool
  orderIns : Bool
  productQ : Nat → Bool
  detalleIns : Nat → Bool
  commitQ : Bool

/-- The server oracle under which no database statement raises. -/
def noFailS : ServerOracle :=
  ⟨false, false, false, false, false, fun _ => false, fun _ => false, false⟩

/-- source = "whatsapp" if phone.startswith("whatsapp:") else "console"
(whatsapp_server.py line 204). -/
def server_source (phone : String) : String :=
  if isPrefixChars "whatsapp:".data phone.data then "whatsapp" else "console"

/-- The duplicate check of whatsapp_server.process_order (lines
207-230): does an order joined to a user with this telefono and source
exist with fecha_hora within the last 5 minutes and monto_total equal to
the submitted payload total. -/
def hasDuplicate (db : DB) (now : Int) (phone source : String) (total : Int) : Bool :=
  db.ordenes.any (fun ord =>
    db.usuarios.any (fun u =>
      ord.usuario_id == u.id && u.telefono == phone && u.origen == source) &&
    decide (now - 300 < ord.fecha_hora) && ord.monto_total == some total)

/-- Sum of the item subtotals as computed by whatsapp_server lines
296-300; a missing subtotal key raises KeyError. -/
def sumSubtotalsE : List PayloadItem → Except String Int
  | [] => .ok 0
  | i :: rest =>
    match i.subtotal with
    | none => .error "KeyError"
    | some s =>
      match sumSubtotalsE rest with
      | .error e => .error e
      | .ok t => .ok (s + t)

/-- The per-item loop of whatsapp_server.process_order (lines 314-347):
the product id is fetched with an activo = true filter through
scalar_one, which raises when no row matches; the item fields are then
indexed directly. -/
def serverInsertDetalles (o : ServerOracle) (db : DB) (oid : Nat) :
    List PayloadItem → Nat → Except String DB
  | [], _ => .ok db
  | item :: rest, idx =>
    match item.product with
    | none => .error "KeyError"
    | some pname =>
      if o.productQ idx then .error "db error: product select"
      else match db.productos.find? (fun p => p.nombre == pname && p.activo) with
        | none => .error "NoResultFound"
        | some p =>
          match item.quantity, item.precio_unitario, item.subtotal with
          | some q, some pu, some st =>
            if o.detalleIns idx then .error "db error: detalle insert"
            else serverInsertDetalles o
              { db with
                orden_detalle := db.orden_detalle ++ [⟨db.nextRowId, oid, some p.id, q, pu, st⟩]
                nextRowId := db.nextRowId + 1 }
              oid rest (idx + 1)
          | _, _, _ => .error "KeyError"

/-- Outcome of the legacy process_order body: `refuse` is a plain
return of (False, False, None) — used both for a detected duplicate and
for the dead falsy-local check — while `done` carries a successful
commit. -/
inductive ServerOutcome
  | refuse
  | done (isNew : Bool) (msg : String) (db : DB)

/-- Confirmation builder of whatsapp_server (lines 154-193): like the
db_utils one but without the horario line and with the address taken
from the user profile instead of the payload. -/
def server_format_order_confirmation (d : OrderData) (userAddress : Option String) : String :=
  let its := d.items.getD []
  let itemLines := its.map (fun item =>
    toString (item.quantity.getD 0) ++ "x " ++ item.product.getD "" ++
      " - $" ++ formatMiles (item.subtotal.getD 0))
  let total := (its.map (fun item => item.subtotal.getD 0)).sum
  let deliveryMode := if d.is_takeaway.getD false then "Retiro en local" else "Delivery"
  let l1 := ["Pedido confirmado!\n", "\nDetalles del pedido:"] ++ itemLines ++
    ["Total: $" ++ formatMiles total, "\nModo de entrega: " ++ deliveryMode]
  let l2 := if !(d.is_takeaway.getD false) && (userAddress.getD "") != ""
    then l1 ++ ["\nDireccion de entrega: " ++ userAddress.getD ""] else l1
  String.intercalate "\n" (l2 ++ ["Medio de pago: " ++ (d.medio_pago.getD "pendiente").capitalize])

/-- Body of whatsapp_server.process_order (lines 195-354): payload total
read by direct indexing, 5-minute duplicate short-circuit, user upsert,
profile fetch, active-local scalar_one, order insert with monto_total
recomputed as the subtotal sum, per-item inserts, commit. -/
def server_body (o : ServerOracle) (d : OrderData) (db : DB) (now : Int) (phone : String) :
    Except String ServerOutcome :=
  let source := server_source phone
  let cp := cleanPhone phone
  match d.total with
  | none => .error "KeyError"
  | some t =>
    if o.dupQ then .error "db error: dup check"
    else if hasDuplicate db now cp source t then .ok .refuse
    else if o.userQ then .error "db error: user upsert"
    else
      let r1 := getOrCreateUser db now cp source
      let uid := r1.1
      let isNew := r1.2.1
      let db1 := r1.2.2
      if !isNew && o.userDataQ then .error "db error: user data"
      else
        let userAddress : Option String :=
          if isNew then none
          else ((db1.usuarios.find? (fun u => u.id == uid)).map (fun u => u.direccion)).join
        if o.localQ then .error "db error: local select"
        else match db.locales.find? (fun l => l.nombre == "Vicente Lopez" && l.activo) with
          | none => .error "NoResultFound"
          | some loc =>
            if loc.id == 0 then .ok .refuse
            else match sumSubtotalsE (d.items.getD []) with
              | .error e => .error e
              | .ok monto =>
                if o.orderIns then .error "db error: order insert"
                else
                  let ord : Orden := ⟨db1.nextRowId, uid, some loc.id, now, "pendiente",
                    some monto, some (d.medio_pago.getD "pendiente"),
                    d.is_takeaway.getD false, none, none, none, none⟩
                  let oid := db1.nextRowId
                  let db2 := { db1 with
                    ordenes := db1.ordenes ++ [ord]
                    nextRowId := db1.nextRowId + 1 }
                  match serverInsertDetalles o db2 oid (d.items.getD []) 0 with
                  | .error e => .error e
                  | .ok db3 =>
                    if o.commitQ then .error "db error: commit"
                    else .ok (.done isNew (server_format_order_confirmation d userAddress) db3)

/-- process_order of app/api/whatsapp_server.py (lines 195-359).  The
result triple is (success, is_new_user, confirmation); a duplicate and
an exception both surface as (False, False, None); text without the
marker falls through to Python None. -/
def server_process_order (o : ServerOracle) (text : OrderText) (db : DB) (now : Int)
    (phone : String) : Option (Bool × Bool × Option String) × DB :=
  match text with
  | .noMarker => (none, db)
  | .badJson => (some (false, false, none), db)
  | .withOrder d =>
    match server_body o d db now phone with
    | .error _ => (some (false, false, none), db)
    | .ok .refuse => (some (false, false, none), db)
    | .ok (.done isNew msg db2) => (some (true, isNew, some msg), db2)

/-- Lookup of an order row by id (used to state persistence facts). -/
def findOrden (db : DB) (oid : Nat) : Option Orden :=
  db.ordenes.find? (fun o => o.id == oid)

/-- Sum of the persisted line-item subtotals of one order. -/
def sumDetallesFor (db : DB) (oid : Nat) : Int :=
  ((db.orden_detalle.filter (fun dd => dd.orden_id == oid)).map (fun dd => dd.subtotal)).sum

/-- Sum of the payload item subtotals (missing keys counting as 0; a
missing key aborts persistence anyway). -/
def sumSub (its : List PayloadItem) : Int :=
  (its.map (fun i => i.subtotal.getD 0)).sum

/-- Row-id well-formedness: every stored order id and line-item order
reference lies below the fresh-row counter.  Holds for every database
populated through the embedded inserts. -/
def IdsWF (db : DB) : Prop :=
  (∀ o ∈ db.ordenes, o.id < db.nextRowId) ∧
  (∀ dd ∈ db.orden_detalle, dd.orden_id < db.nextRowId)

/-- An item is offending in the sense of the validation claim: its name
does not resolve in the active catalog, or its unit price differs from
the catalog price, or its subtotal differs from unit price times
quantity. -/
def offendingB (active : List (String × Int)) (i : PayloadItem) : Bool :=
  match lookupProduct active (i.product.getD "") with
  | none => true
  | some p =>
    (i.precio_unitario.getD 0 != p) ||
    (i.subtotal.getD 0 != i.precio_unitario.getD 0 * i.quantity.getD 0)

/-- The validation message names the product of the given item. -/
def namesProduct (msg : String) (i : PayloadItem) : Prop :=
  msg = msgNotActive (i.product.getD "") ∨ msg = msgBadPrice (i.product.getD "") ∨
  msg = msgBadSubtotal (i.product.getD "")

/-- Concrete data used by the witnesses and counterexamples. -/
def exProductos : List Producto :=
  [⟨1, "California Roll", 1200, true⟩, ⟨2, "Delivery", 500, true⟩]

/-- One active store location. -/
def exLocales : List Local := [⟨3, "Vicente Lopez", true⟩]

/-- A registered WhatsApp user. -/
def exUser : Usuario := ⟨4, "+111", "whatsapp", none, none, 0⟩

/-- An order of that user committed at time 0 with total 2400. -/
def exOrderPrev : Orden :=
  ⟨5, 4, some 3, 0, "pendiente", some 2400, some "efectivo", true, some "whatsapp",
   some "", none, some "Entrega inmediata"⟩

/-- The empty database. -/
def emptyDB : DB := ⟨[], [], [], [], [], [], 0, 0⟩

/-- Database already holding the order above (for the duplicate claims). -/
def dbC1 : DB := ⟨exProductos, exLocales, [exUser], [exOrderPrev], [], [], 10, 0⟩

/-- Database with catalog, location and user but no orders. -/
def dbBase : DB := ⟨exProductos, exLocales, [exUser], [], [], [], 10, 0⟩

/-- Two California Rolls at the catalog price. -/
def itemCR2 : PayloadItem := ⟨some "California Roll", some 2, some 1200, some 2400⟩

/-- One California Roll at the catalog price. -/
def itemCR1 : PayloadItem := ⟨some "California Roll", some 1, some 1200, some 1200⟩

/-- A consistent takeaway payload with total 2400. -/
def pC1 : OrderData :=
  ⟨some 2400, some [itemCR2], some true, some "efectivo", some "", none,
   some "Entrega inmediata"⟩

/-- A payload whose declared total (999) differs from its item subtotal
sum (100). -/
def pC2 : OrderData :=
  ⟨some 999, some [⟨some "California Roll", some 2, some 50, some 100⟩], some true,
   some "efectivo", some "", none, some "Entrega inmediata"⟩

/-- A payload with an unknown product and no observaciones key. -/
def pC3 : OrderData :=
  ⟨some 10, some [⟨some "Nope", some 1, some 10, some 10⟩], some true, some "efectivo",
   none, none, some "Entrega inmediata"⟩

/-- A payload with a stale unit price (1300 against catalog 1200). -/
def pC3badprice : OrderData :=
  ⟨some 1300, some [⟨some "California Roll", some 1, some 1300, some 1300⟩], some true,
   some "efectivo", some "", none, some "Entrega inmediata"⟩

/-- A delivery payload carrying no delivery address. -/
def pC7deliv : OrderData :=
  ⟨some 1200, some [itemCR1], some false, some "efectivo", some "", none,
   some "Entrega inmediata"⟩

/-- A payload without the horario_entrega key. -/
def pC7nohor : OrderData :=
  ⟨some 1200, some [itemCR1], some true, some "efectivo", some "", none, none⟩

/-- The active-product dictionary of the concrete catalog. -/
def exActive : List (String × Int) := active_products exProductos

/-- The ledger row save_message appends to the empty database at time 0. -/
def exM1 : Mensaje :=
  ⟨0, 1, none, "usuario", "a", 0, "whatsapp", false, false, false, none, none, some 0, false⟩

/-- The ledger row a second save_message appends 100 seconds later. -/
def exM2 : Mensaje :=
  ⟨1, 1, none, "usuario", "b", 100, "whatsapp", false, false, false, none, none, some 0, false⟩

/-- A handoff-flagged ledger row recorded at time 0. -/
def exFlaggedMsg : Mensaje :=
  ⟨0, 1, none, "usuario", "hablar con humano", 0, "whatsapp", true, true, false, none, none,
   some 0, false⟩

/-- Database whose ledger holds exactly the flagged row above. -/
def dbHM : DB := ⟨[], [], [], [], [], [exFlaggedMsg], 1, 1⟩

/-- The latest-user-message scan only ever returns the accumulator or a
user-role row of the given user from the list. -/
theorem foldl_luStep_mem (uid : Nat) (l : List Mensaje) (acc : Option Mensaje) (m : Mensaje)
    (h : l.foldl (luStep uid) acc = some m) :
    acc = some m ∨ (m ∈ l ∧ m.usuario_id = uid ∧ m.rol = "usuario") := by
  induction l generalizing acc with
  | nil => exact .inl h
  | cons x xs ih =>
    rw [List.foldl_cons] at h
    rcases ih (luStep uid acc x) h with h1 | h2
    · cases hx : (x.usuario_id == uid && x.rol == "usuario") with
      | false =>
        simp only [luStep, hx, Bool.false_eq_true, if_false] at h1
        exact .inl h1
      | true =>
        simp only [luStep, hx, if_true] at h1
        have hx2 : x.usuario_id = uid ∧ x.rol = "usuario" := by
          simpa [Bool.and_eq_true, beq_iff_eq] using hx
        cases acc with
        | none =>
          have hxm : x = m := by simpa using h1
          subst hxm
          exact .inr ⟨List.mem_cons_self _ _, hx2.1, hx2.2⟩
        | some a =>
          by_cases hts : a.timestamp ≤ x.timestamp
          · have hxm : x = m := by simpa [hts] using h1
            subst hxm
            exact .inr ⟨List.mem_cons_self _ _, hx2.1, hx2.2⟩
          · have ham : a = m := by simpa [hts] using h1
            subst ham
            exact .inl rfl
    · exact .inr ⟨List.mem_cons_of_mem _ h2.1, h2.2⟩

/-- Appending a user-role row at least as recent as every stored one
makes it the latest user message. -/
theorem foldl_luStep_append (uid : Nat) (l : List Mensaje) (m : Mensaje)
    (hu : m.usuario_id = uid) (hr : m.rol = "usuario")
    (hts : ∀ x ∈ l, x.usuario_id = uid → x.rol = "usuario" → x.timestamp ≤ m.timestamp) :
    (l ++ [m]).foldl (luStep uid) none = some m := by
  rw [List.foldl_append]
  cases h : l.foldl (luStep uid) none with
  | none => simp [luStep, hu, hr]
  | some a =>
    rcases foldl_luStep_mem uid l none a h with h1 | ⟨hmem, hu2, hr2⟩
    · exact absurd h1 (by simp)
    · have hle : a.timestamp ≤ m.timestamp := hts a hmem hu2 hr2
      simp [luStep, hu, hr, hle]

/-- A reused session id always comes from a stored ledger row. -/
theorem resolve_session_some (db : DB) (now : Int) (uid : Nat) (s : Nat)
    (h : resolve_session db now uid = some s) :
    ∃ m ∈ db.mensajes, m.sesion_id = some s := by
  unfold resolve_session at h
  cases hl : lastUserMessage db uid with
  | none => rw [hl] at h; cases h
  | some m =>
    rw [hl] at h
    have h2 : now - m.timestamp < 43200 ∧ m.sesion_id = some s := by simpa using h
    rcases foldl_luStep_mem uid db.mensajes none m hl with h1 | ⟨hmem, _, _⟩
    · exact absurd h1 (by simp)
    · exact ⟨m, hmem, h2.2⟩

/-- Specification of a successful save_message run: exactly one row is
appended, carrying the resolved (or freshly minted) session token, the
current timestamp and the propagated human-mode flag; the token counter
advances only when a fresh token was minted. -/
theorem save_message_spec (db : DB) (now : Int) (uid : Nat) (b rol : String)
    (oid : Option Nat) (canal : String) (ih : Bool) (mu : Option String)
    (tk : Option Nat) (oc : Bool) (hm : Bool) :
    ∃ m : Mensaje,
      (save_message db now uid b rol oid canal ih mu tk oc hm false).2.mensajes
        = db.mensajes ++ [m] ∧
      m.usuario_id = uid ∧ m.rol = rol ∧ m.timestamp = now ∧
      m.sesion_id = some ((resolve_session db now uid).getD db.nextSid) ∧
      m.intervencion_humana = (if ih then true else is_in_human_mode db now uid hm) ∧
      (save_message db now uid b rol oid canal ih mu tk oc hm false).2.nextSid
        = (if (resolve_session db now uid).isSome then db.nextSid else db.nextSid + 1) := by
  cases hres : resolve_session db now uid with
  | some s =>
    refine ⟨⟨db.nextRowId, uid, oid, rol, b, now, canal,
      (if ih then true else is_in_human_mode db now uid hm),
      (if ih then true else is_in_human_mode db now uid hm),
      false, mu, tk, some s, oc⟩, ?_, rfl, rfl, rfl, ?_, rfl, ?_⟩
    · simp [save_message, hres]
    · simp [hres]
    · simp [save_message, hres]
  | none =>
    refine ⟨⟨db.nextRowId, uid, oid, rol, b, now, canal,
      (if ih then true else is_in_human_mode db now uid hm),
      (if ih then true else is_in_human_mode db now uid hm),
      false, mu, tk, some db.nextSid, oc⟩, ?_, rfl, rfl, rfl, ?_, rfl, ?_⟩
    · simp [save_message, hres]
    · simp [hres]
    · simp [save_message, hres]

/-- save_message preserves the session-token well-formedness invariant. -/
theorem save_message_SesWF (db : DB) (now : Int) (uid : Nat) (b rol : String)
    (oid : Option Nat) (canal : String) (ih : Bool) (mu : Option String)
    (tk : Option Nat) (oc : Bool) (hm sf : Bool) (hwf : SesWF db) :
    SesWF (save_message db now uid b rol oid canal ih mu tk oc hm sf).2 := by
  by_cases hsf : sf = true
  · simpa [save_message, hsf] using hwf
  · simp only [Bool.not_eq_true] at hsf
    subst hsf
    rcases save_message_spec db now uid b rol oid canal ih mu tk oc hm with
      ⟨m1, hmsgs, _, _, _, hsid, _, hsidctr⟩
    intro m hmm
    rw [hmsgs, List.mem_append, List.mem_singleton] at hmm
    rcases hmm with hmm | rfl
    · rcases hwf m hmm with ⟨k, hk, hklt⟩
      refine ⟨k, hk, ?_⟩
      rw [hsidctr]
      split
      · exact hklt
      · exact Nat.lt_succ_of_lt hklt
    · refine ⟨(resolve_session db now uid).getD db.nextSid, hsid, ?_⟩
      rw [hsidctr]
      cases hres : resolve_session db now uid with
      | some s =>
        rcases resolve_session_some db now uid s hres with ⟨m0, hmem, hs0⟩
        rcases hwf m0 hmem with ⟨k, hk, hklt⟩
        rw [hs0] at hk
        have hsk : s = k := by simpa using hk
        subst hsk
        simpa [hres] using hklt
      | none => simp [hres]

/-- C4: when a user-role message is appended, it is stamped with the
session id of the user's most recent prior user-role message if that
message is less than 12 hours old, and otherwise with a freshly minted
session id unseen in the ledger; consequently two consecutive user
messages with gap below 12 hours share a session id and two with gap of
at least 12 hours do not. -/
theorem C4_session_window (db : DB) (uid : Nat) (t tp : Int) (b1 b2 : String)
    (hwf : SesWF db)
    (hle : ∀ m ∈ db.mensajes, m.usuario_id = uid → m.rol = "usuario" → m.timestamp ≤ t)
    (htt : t ≤ tp) :
    (∀ m : Mensaje,
      (save_message db t uid b1 "usuario" none "whatsapp" false none none false false
          false).2.mensajes = db.mensajes ++ [m] →
      (∀ lm, lastUserMessage db uid = some lm → t - lm.timestamp < 12 * 3600 →
        m.sesion_id = lm.sesion_id) ∧
      ((∀ lm, lastUserMessage db uid = some lm → 12 * 3600 ≤ t - lm.timestamp) →
        m.sesion_id = some db.nextSid ∧
        ∀ m0 ∈ db.mensajes, m0.sesion_id ≠ some db.nextSid)) ∧
    (∀ m1 m2 : Mensaje,
      (save_message db t uid b1 "usuario" none "whatsapp" false none none false false
          false).2.mensajes = db.mensajes ++ [m1] →
      (save_message
          (save_message db t uid b1 "usuario" none "whatsapp" false none none false false
            false).2
          tp uid b2 "usuario" none "whatsapp" false none none false false false).2.mensajes
        = (save_message db t uid b1 "usuario" none "whatsapp" false none none false false
            false).2.mensajes ++ [m2] →
      ((tp - t < 12 * 3600 → m2.sesion_id = m1.sesion_id) ∧
       (12 * 3600 ≤ tp - t → m2.sesion_id ≠ m1.sesion_id))) := by
  obtain ⟨c1, hc1msgs, hc1u, hc1r, hc1t, hc1sid, hc1f, hc1ctr⟩ :=
    save_message_spec db t uid b1 "usuario" none "whatsapp" false none none false false
  constructor
  · intro m hm
    have hcm : c1 = m := by
      simpa using List.append_cancel_left (hc1msgs.symm.trans hm)
    subst hcm
    constructor
    · intro lm hlm hgap
      have hres : resolve_session db t uid = lm.sesion_id := by
        unfold resolve_session
        rw [hlm]
        show (if t - lm.timestamp < 12 * 3600 then lm.sesion_id else none) = _
        rw [if_pos hgap]
      rcases foldl_luStep_mem uid db.mensajes none lm hlm with h1 | ⟨hmem, _, _⟩
      · exact absurd h1 (by simp)
      rcases hwf lm hmem with ⟨k, hk, _⟩
      rw [hc1sid, hres, hk]
      simp
    · intro hstale
      have hresn : resolve_session db t uid = none := by
        unfold resolve_session
        cases hl : lastUserMessage db uid with
        | none => rfl
        | some lm =>
          have := hstale lm hl
          show (if t - lm.timestamp < 12 * 3600 then lm.sesion_id else none) = none
          rw [if_neg (by omega)]
      refine ⟨by rw [hc1sid, hresn]; simp, ?_⟩
      intro m0 hm0 hcontra
      rcases hwf m0 hm0 with ⟨k, hk, hklt⟩
      rw [hk] at hcontra
      have : k = db.nextSid := by simpa using hcontra
      omega
  · intro m1 m2 hm1 hm2
    have hcm1 : c1 = m1 := by
      simpa using List.append_cancel_left (hc1msgs.symm.trans hm1)
    subst hcm1
    have hwf1 : SesWF (save_message db t uid b1 "usuario" none "whatsapp" false none none
        false false false).2 :=
      save_message_SesWF db t uid b1 "usuario" none "whatsapp" false none none false
        false false hwf
    have hlast1 : lastUserMessage
        (save_message db t uid b1 "usuario" none "whatsapp" false none none false false
          false).2 uid = some c1 := by
      unfold lastUserMessage
      rw [hc1msgs]
      exact foldl_luStep_append uid db.mensajes c1 hc1u hc1r
        (fun x hx hxu hxr => by rw [hc1t]; exact hle x hx hxu hxr)
    obtain ⟨c2, hc2msgs, hc2u, hc2r, hc2t, hc2sid, hc2f, hc2ctr⟩ :=
      save_message_spec
        (save_message db t uid b1 "usuario" none "whatsapp" false none none false false
          false).2 tp uid b2 "usuario" none "whatsapp" false none none false false
    have hcm2 : c2 = m2 := by
      simpa using List.append_cancel_left (hc2msgs.symm.trans hm2)
    subst hcm2
    have hres1 : resolve_session
        (save_message db t uid b1 "usuario" none "whatsapp" false none none false false
          false).2 tp uid
        = if tp - t < 12 * 3600 then c1.sesion_id else none := by
      unfold resolve_session
      rw [hlast1]
      show (if tp - c1.timestamp < 12 * 3600 then c1.sesion_id else none) = _
      rw [hc1t]
    constructor
    · intro hgap
      rw [hc2sid, hres1, if_pos hgap, hc1sid]
      simp
    · intro hgap
      rw [hc2sid, hres1, if_neg (by omega)]
      simp only [Option.getD_none]
      intro hcontra
      have hc1mem : c1 ∈ (save_message db t uid b1 "usuario" none "whatsapp" false none
          none false false false).2.mensajes := by
        rw [hc1msgs]; simp
      rcases hwf1 c1 hc1mem with ⟨k, hk, hklt⟩
      rw [hk] at hcontra
      have : (save_message db t uid b1 "usuario" none "whatsapp" false none none false
          false false).2.nextSid = k := by simpa using hcontra
      omega

/-- Witness for C4 at a concrete input: two user messages 100 seconds
apart share the session id minted for the first. -/
theorem C4_session_window_witness : exM2.sesion_id = exM1.sesion_id := by
  have h := C4_session_window emptyDB 1 0 100 "a" "b"
    (by intro m hm; simp [emptyDB] at hm)
    (by intro m hm; simp [emptyDB] at hm)
    (by decide)
  exact (h.2 exM1 exM2 (by decide) (by decide)).1 (by decide)

/-- C5: is_in_human_mode is true exactly when some ledger row of the
user carries the handoff flag with a timestamp less than 2 hours old;
it is true immediately after a flagged row is recorded, and false as
soon as every flagged row (in particular the most recent one) is at
least 2 hours old. -/
theorem C5_human_mode (db : DB) (now : Int) (uid : Nat) :
    (is_in_human_mode db now uid false = true ↔
      ∃ m ∈ db.mensajes, m.usuario_id = uid ∧ m.intervencion_humana = true ∧
        now - m.timestamp < 2 * 3600) ∧
    (∀ b rol oid canal mu tk oc,
      is_in_human_mode
        (save_message db now uid b rol oid canal true mu tk oc false false).2 now uid false
        = true) ∧
    ((∀ m ∈ db.mensajes, m.usuario_id = uid → m.intervencion_humana = true →
        2 * 3600 ≤ now - m.timestamp) →
      is_in_human_mode db now uid false = false) := by
  refine ⟨?_, ?_, ?_⟩
  · simp only [is_in_human_mode, Bool.false_eq_true, if_false, List.any_eq_true,
      Bool.and_eq_true, beq_iff_eq, decide_eq_true_eq]
    constructor
    · rintro ⟨m, hm, ⟨⟨hu, hf⟩, ht⟩⟩
      exact ⟨m, hm, hu, hf, by omega⟩
    · rintro ⟨m, hm, hu, hf, ht⟩
      exact ⟨m, hm, ⟨⟨hu, hf⟩, by omega⟩⟩
  · intro b rol oid canal mu tk oc
    obtain ⟨c, hmsgs, hcu, _, hct, _, hcf, _⟩ :=
      save_message_spec db now uid b rol oid canal true mu tk oc false
    simp only [is_in_human_mode, Bool.false_eq_true, if_false, List.any_eq_true,
      Bool.and_eq_true, beq_iff_eq, decide_eq_true_eq]
    refine ⟨c, ?_, ⟨⟨hcu, by simp [hcf]⟩, by rw [hct]; omega⟩⟩
    rw [hmsgs]; simp
  · intro hstale
    simp only [is_in_human_mode, Bool.false_eq_true, if_false, List.any_eq_false,
      Bool.and_eq_true, beq_iff_eq, decide_eq_true_eq, not_and]
    intro m hm hcond
    rcases hcond with ⟨hu, hf⟩
    have := hstale m hm hu hf
    omega

/-- Witness for C5 at a concrete input: with a flagged row at time 0
the predicate holds at time 100 and fails at time 7200. -/
theorem C5_human_mode_witness :
    is_in_human_mode dbHM 100 1 false = true ∧ is_in_human_mode dbHM 7200 1 false = false := by
  constructor
  · exact (C5_human_mode dbHM 100 1).1.mpr ⟨exFlaggedMsg, by simp [dbHM], by decide, by decide,
      by decide⟩
  · exact (C5_human_mode dbHM 7200 1).2.2 (by
      intro m hm hu hf
      simp [dbHM] at hm
      subst hm
      decide)

/-- C8 counterexample: with the last-message query failing,
save_message records nothing and returns None instead of appending the
message under a fresh session id as the claim states. -/
theorem C8_counterexample :
    save_message dbHM 100 1 "hola" "usuario" none "whatsapp" false none none false false true
      = (none, dbHM) ∧ dbHM.mensajes.length = 1 := by
  constructor
  · rfl
  · rfl

/-- C8 amended: is_in_human_mode degrades to false (assume automated)
when its history read fails, and save_message does mint a fresh session
id when no prior user message exists; but a failure while reading the
conversation history makes save_message abort the whole append —
nothing is recorded and None is returned — rather than degrade to a
fresh session. -/
theorem C8_amended (db : DB) (now : Int) (uid : Nat) (b rol : String) (oid : Option Nat)
    (canal : String) (ih : Bool) (mu : Option String) (tk : Option Nat) (oc : Bool)
    (hm : Bool) :
    (is_in_human_mode db now uid true = false) ∧
    (save_message db now uid b rol oid canal ih mu tk oc hm true = (none, db)) ∧
    (lastUserMessage db uid = none →
      ∀ m : Mensaje,
        (save_message db now uid b rol oid canal ih mu tk oc hm false).2.mensajes
          = db.mensajes ++ [m] →
        m.sesion_id = some db.nextSid) := by
  refine ⟨rfl, rfl, ?_⟩
  intro hnone m hm2
  obtain ⟨c, hmsgs, _, _, _, hcsid, _, _⟩ :=
    save_message_spec db now uid b rol oid canal ih mu tk oc hm
  have hcm : c = m := by
    simpa using List.append_cancel_left (hmsgs.symm.trans hm2)
  subst hcm
  have hres : resolve_session db now uid = none := by
    unfold resolve_session
    rw [hnone]
  rw [hcsid, hres]
  simp

/-- Witness for C8 amended at a concrete input: on the empty ledger the
appended row carries the fresh token 0. -/
theorem C8_amended_witness :
    (save_message emptyDB 0 1 "a" "usuario" none "whatsapp" false none none false false
      false).2.mensajes = emptyDB.mensajes ++ [exM1] ∧
    exM1.sesion_id = some emptyDB.nextSid := by
  refine ⟨by decide, ?_⟩
  exact (C8_amended emptyDB 0 1 "a" "usuario" none "whatsapp" false none none false
    false).2.2 (by decide) exM1 (by decide)

/-- In an association list with pairwise distinct keys, a key determines
its value. -/
theorem nodupKeys_val_eq {l : AgentMap} (h : (l.map Prod.fst).Nodup)
    {k : Nat} {a b : Int} (ha : (k, a) ∈ l) (hb : (k, b) ∈ l) : a = b := by
  induction l with
  | nil => cases ha
  | cons x xs ih =>
    rw [List.map_cons, List.nodup_cons] at h
    rcases List.mem_cons.mp ha with rfl | ha2
    · rcases List.mem_cons.mp hb with hb1 | hb2
      · exact (congrArg Prod.snd hb1).symm
      · exact absurd (List.mem_map_of_mem Prod.fst hb2) (by simpa using h.1)
    · rcases List.mem_cons.mp hb with hb1 | hb2
      · subst hb1
        exact absurd (List.mem_map_of_mem Prod.fst ha2) (by simpa using h.1)
      · exact ih h.2 ha2 hb2

/-- C9: a cached agent entry is removed by a sweep exactly when its
last_seen lies more than 24 hours in the past (an entry aged at most
24 hours survives), and every terminal path of the webhook that follows
a processed inbound message performs the touch-then-sweep sequence —
there is no background timer. -/
theorem C9_agent_cache (agents : AgentMap) (now : Int) (uid : Nat) (ls : Int)
    (hmem : (uid, ls) ∈ agents) :
    ((agents.map Prod.fst).Nodup → INACTIVITY_THRESHOLD < now - ls →
      ∀ e ∈ cleanup_inactive_agents agents now, e.1 ≠ uid) ∧
    (now - ls ≤ INACTIVITY_THRESHOLD → (uid, ls) ∈ cleanup_inactive_agents agents now) ∧
    (∀ p : WebhookPath,
      webhook_agent_effect agents uid now p
        = cleanup_inactive_agents (touchAgent agents uid now) now) := by
  refine ⟨?_, ?_, ?_⟩
  · intro hnd hold e he hkey
    rw [cleanup_inactive_agents, List.mem_filter] at he
    obtain ⟨e1, e2⟩ := e
    simp only at hkey
    subst hkey
    have hvv : e2 = ls := nodupKeys_val_eq hnd he.1 hmem
    subst hvv
    have := of_decide_eq_true he.2
    omega
  · intro hfresh
    rw [cleanup_inactive_agents, List.mem_filter]
    exact ⟨hmem, decide_eq_true hfresh⟩
  · intro p
    cases p <;> rfl

/-- Witness for C9 at concrete inputs: an entry touched 23 h 59 m ago
survives the sweep, one untouched for 24 h 1 m is removed. -/
theorem C9_agent_cache_witness :
    (1, 0) ∈ cleanup_inactive_agents [(1, 0)] (24 * 3600 - 60) ∧
    ∀ e ∈ cleanup_inactive_agents [(1, 0)] (24 * 3600 + 60), e.1 ≠ 1 := by
  constructor
  · exact (C9_agent_cache [(1, 0)] (24 * 3600 - 60) 1 0 (by decide)).2.1 (by decide)
  · exact (C9_agent_cache [(1, 0)] (24 * 3600 + 60) 1 0 (by decide)).1 (by decide) (by decide)

/-- C10: a message saved without the handoff flag explicitly set stores
the value of is_in_human_mode at append time; hence a message recorded
while human mode is active is itself flagged and keeps human mode alive
for a further 2 hours from its own timestamp. -/
theorem C10_flag_propagation (db : DB) (now : Int) (uid : Nat) (b rol : String)
    (oid : Option Nat) (canal : String) (mu : Option String) (tk : Option Nat) (oc : Bool)
    (hm : Bool) :
    (∀ m : Mensaje,
      (save_message db now uid b rol oid canal false mu tk oc hm false).2.mensajes
        = db.mensajes ++ [m] →
      m.intervencion_humana = is_in_human_mode db now uid hm) ∧
    (is_in_human_mode db now uid false = true →
      ∀ m : Mensaje,
        (save_message db now uid b rol oid canal false mu tk oc false false).2.mensajes
          = db.mensajes ++ [m] →
        m.intervencion_humana = true ∧
        ∀ t2 : Int, t2 - now < 2 * 3600 →
          is_in_human_mode
            (save_message db now uid b rol oid canal false mu tk oc false false).2 t2 uid
            false = true) := by
  constructor
  · intro m hm2
    obtain ⟨c, hmsgs, _, _, _, _, hcf, _⟩ :=
      save_message_spec db now uid b rol oid canal false mu tk oc hm
    have hcm : c = m := by
      simpa using List.append_cancel_left (hmsgs.symm.trans hm2)
    subst hcm
    simpa using hcf
  · intro hactive m hm2
    obtain ⟨c, hmsgs, hcu, _, hct, _, hcf, _⟩ :=
      save_message_spec db now uid b rol oid canal false mu tk oc false
    have hcm : c = m := by
      simpa using List.append_cancel_left (hmsgs.symm.trans hm2)
    subst hcm
    have hflag : c.intervencion_humana = true := by
      rw [hcf]
      simpa using hactive
    refine ⟨hflag, ?_⟩
    intro t2 ht2
    simp only [is_in_human_mode, Bool.false_eq_true, if_false, List.any_eq_true,
      Bool.and_eq_true, beq_iff_eq, decide_eq_true_eq]
    refine ⟨c, ?_, ⟨⟨hcu, hflag⟩, by rw [hct]; omega⟩⟩
    rw [hmsgs]; simp

/-- Witness for C10 at a concrete input: a user message saved at time
100 while the flagged row of time 0 is active is itself stored flagged. -/
theorem C10_flag_propagation_witness :
    (save_message dbHM 100 1 "sigo aqui" "usuario" none "whatsapp" false none none false
      false false).2.mensajes
      = dbHM.mensajes ++ [⟨1, 1, none, "usuario", "sigo aqui", 100, "whatsapp", true, true,
          false, none, none, some 0, false⟩] ∧
    (⟨1, 1, none, "usuario", "sigo aqui", 100, "whatsapp", true, true, false, none, none,
        some 0, false⟩ : Mensaje).intervencion_humana = true := by
  refine ⟨by decide, ?_⟩
  exact ((C10_flag_propagation dbHM 100 1 "sigo aqui" "usuario" none "whatsapp" none none
    false false).2 (by decide) _ (by decide)).1

/-- find? skips a prefix on which the predicate is false. -/
theorem find?_append_right {α : Type} (p : α → Bool) (l1 l2 : List α)
    (h : ∀ x ∈ l1, p x = false) : (l1 ++ l2).find? p = l2.find? p := by
  induction l1 with
  | nil => rfl
  | cons x xs ih =>
    rw [List.cons_append, List.find?_cons_of_neg _ (by simp [h x (List.mem_cons_self _ _)]),
      ih (fun y hy => h y (List.mem_cons_of_mem _ hy))]

/-- The user upsert leaves every other table untouched and never lowers
the fresh-row counter. -/
theorem getOrCreateUser_spec (db : DB) (now : Int) (p o : String) :
    (getOrCreateUser db now p o).2.2.productos = db.productos ∧
    (getOrCreateUser db now p o).2.2.locales = db.locales ∧
    (getOrCreateUser db now p o).2.2.ordenes = db.ordenes ∧
    (getOrCreateUser db now p o).2.2.orden_detalle = db.orden_detalle ∧
    db.nextRowId ≤ (getOrCreateUser db now p o).2.2.nextRowId := by
  unfold getOrCreateUser
  cases h : db.usuarios.find? (fun u => u.telefono == p && u.origen == o) with
  | some u => exact ⟨rfl, rfl, rfl, rfl, Nat.le_refl _⟩
  | none => exact ⟨rfl, rfl, rfl, rfl, Nat.le_succ _⟩

/-- Unfolded shape of the order insert. -/
theorem insertOrderRow_spec (db : DB) (now : Int) (uid : Nat) (og : String) (d : OrderData) :
    (insertOrderRow db now uid og d).1 = db.nextRowId ∧
    (insertOrderRow db now uid og d).2.ordenes = db.ordenes ++
      [⟨db.nextRowId, uid,
        (db.locales.find? (fun l => l.nombre == "Vicente Lopez")).map (fun l => l.id),
        now, "pendiente", d.total, d.medio_pago, d.is_takeaway.getD true, some og,
        d.observaciones, (if d.is_takeaway.getD true then none else d.direccion),
        some (d.horario_entrega.getD "Entrega inmediata")⟩] ∧
    (insertOrderRow db now uid og d).2.orden_detalle = db.orden_detalle ∧
    (insertOrderRow db now uid og d).2.productos = db.productos ∧
    (insertOrderRow db now uid og d).2.nextRowId = db.nextRowId + 1 :=
  ⟨rfl, rfl, rfl, rfl, rfl⟩

/-- A successful delivery phase either leaves payload and database
untouched, or appends the synthetic Delivery item and rewrites the
persisted total accordingly. -/
theorem deliveryPhase_ok (o : Oracle) (db : DB) (oid : Nat) (d d2 : OrderData) (db3 : DB)
    (h : deliveryPhase o db oid d = .ok (d2, db3)) :
    (d2 = d ∧ db3 = db ∧
      (d.is_takeaway.getD true = true ∨
        db.productos.find? (fun p => toLowerStr p.nombre == "delivery") = none)) ∨
    (∃ pb : Producto, ∃ its : List PayloadItem, ∃ t : Int,
      db.productos.find? (fun p => toLowerStr p.nombre == "delivery") = some pb ∧
      d.is_takeaway.getD true = false ∧
      d.items = some its ∧ d.total = some t ∧
      d2 = { d with items := some (its ++ [deliveryItem pb.precio_base])
                    total := some (t + pb.precio_base) } ∧
      db3 = updateMonto db oid (t + pb.precio_base)) := by
  rw [deliveryPhase] at h
  by_cases htk : d.is_takeaway.getD true = true
  · rw [if_pos htk] at h
    left
    injection h with h
    exact ⟨congrArg Prod.fst h.symm, congrArg Prod.snd h.symm, Or.inl htk⟩
  · rw [if_neg htk] at h
    by_cases hq : o.deliveryQ = true
    · rw [if_pos hq] at h; cases h
    · rw [if_neg hq] at h
      cases hf : db.productos.find? (fun p => toLowerStr p.nombre == "delivery") with
      | none =>
        rw [hf] at h
        left
        injection h with h
        exact ⟨congrArg Prod.fst h.symm, congrArg Prod.snd h.symm, Or.inr rfl⟩
      | some pb =>
        rw [hf] at h
        cases hits : d.items with
        | none => rw [hits] at h; cases h
        | some its =>
          cases htot : d.total with
          | none => rw [hits, htot] at h; cases h
          | some t =>
            rw [hits, htot] at h
            dsimp only at h
            by_cases hm : o.montoUpd = true
            · rw [if_pos hm] at h; cases h
            · rw [if_neg hm] at h
              right
              injection h with h
              refine ⟨pb, its, t, rfl, by simpa using htk, rfl, rfl,
                congrArg Prod.fst h.symm, congrArg Prod.snd h.symm⟩

/-- A successful detail-insert loop appends one row per item, each
bound to the given order id with the submitted subtotal, and touches no
other table. -/
theorem insertDetalles_ok (o : Oracle) (oid : Nat) (items : List PayloadItem) :
    ∀ (db : DB) (idx : Nat) (db4 : DB), insertDetalles o db oid items idx = .ok db4 →
    db4.ordenes = db.ordenes ∧ db4.productos = db.productos ∧ db4.locales = db.locales ∧
    db.nextRowId ≤ db4.nextRowId ∧
    ∃ nd : List OrdenDetalle,
      db4.orden_detalle = db.orden_detalle ++ nd ∧
      nd.length = items.length ∧
      (∀ x ∈ nd, x.orden_id = oid) ∧
      nd.map (fun x => x.subtotal) = items.map (fun i => i.subtotal.getD 0) := by
  induction items with
  | nil =>
    intro db idx db4 h
    injection h with h
    subst h
    exact ⟨rfl, rfl, rfl, Nat.le_refl _, [], by simp, rfl, by simp, by simp⟩
  | cons x rest ih =>
    intro db idx db4 h
    rw [insertDetalles] at h
    by_cases ho : o.detalleIns idx = true
    · rw [if_pos ho] at h; cases h
    · rw [if_neg ho] at h
      obtain ⟨xp, xq, xu, xs⟩ := x
      cases xp with
      | none => cases h
      | some pname =>
        cases xq with
        | none => cases h
        | some q =>
          cases xu with
          | none => cases h
          | some pu =>
            cases xs with
            | none => cases h
            | some st =>
              obtain ⟨h1, h2, h3, h4, nd, hnd, hlen, hoid2, hsub⟩ := ih _ _ _ h
              refine ⟨h1, h2, h3, by simpa using Nat.le_trans (Nat.le_succ _) h4,
                ⟨db.nextRowId, oid,
                  (db.productos.find? (fun p => p.nombre == pname)).map (fun p => p.id),
                  q, pu, st⟩ :: nd, ?_, by simpa using hlen, ?_, ?_⟩
              · rw [hnd]
                simp
              · intro y hy
                rcases List.mem_cons.mp hy with rfl | hy2
                · rfl
                · exact hoid2 y hy2
              · simpa using hsub

/-- Mapping a function that fixes every element is the identity. -/
theorem map_id_of_eq {α : Type} (l : List α) (f : α → α) (h : ∀ x ∈ l, f x = x) :
    l.map f = l := by
  induction l with
  | nil => rfl
  | cons x xs ih =>
    rw [List.map_cons, h x (List.mem_cons_self _ _),
      ih (fun y hy => h y (List.mem_cons_of_mem _ hy))]

/-- Lookup of a freshly appended order row whose id is new to the table. -/
theorem findOrden_append_fresh (db4 : DB) (base : List Orden) (row2 : Orden) (oid : Nat)
    (h4 : db4.ordenes = base ++ [row2]) (hid : row2.id = oid)
    (hfresh : ∀ x ∈ base, (x.id == oid) = false) :
    findOrden db4 oid = some row2 := by
  rw [findOrden, h4, find?_append_right _ _ _ hfresh]
  simp [List.find?, hid]

/-- The subtotal sum over an order id present only in the appended rows. -/
theorem sumDetallesFor_append (db4 : DB) (detBase nd : List OrdenDetalle) (oid : Nat)
    (h4 : db4.orden_detalle = detBase ++ nd)
    (hfreshd : ∀ x ∈ detBase, (x.orden_id == oid) = false)
    (hall : ∀ x ∈ nd, x.orden_id = oid) :
    sumDetallesFor db4 oid = (nd.map (fun x => x.subtotal)).sum := by
  rw [sumDetallesFor, h4, List.filter_append]
  have hold : detBase.filter (fun dd => dd.orden_id == oid) = [] :=
    List.filter_eq_nil_iff.mpr (fun dd hdd => by simp [hfreshd dd hdd])
  have hnew : nd.filter (fun dd => dd.orden_id == oid) = nd :=
    List.filter_eq_self.mpr (fun dd hdd => by simp [hall dd hdd])
  rw [hold, hnew, List.nil_append]

/-- Specification of a successful afterOrderIns run over a database
whose order table ends in the freshly inserted row: the run keeps that
single new order row (with the delivery total rewrite applied when due),
appends one line item per payload item plus the synthetic Delivery item
when due, and, when the payload total matches its subtotal sum, leaves
the persisted total equal to the persisted subtotal sum. -/
theorem afterOrderIns_ok (o : Oracle) (d : OrderData) (isNew : Bool) (oid : Nat) (db2 : DB)
    (base : List Orden) (row : Orden) (detBase : List OrdenDetalle)
    (hord : db2.ordenes = base ++ [row])
    (hrowid : row.id = oid)
    (hrowm : row.monto_total = d.total)
    (hdet : db2.orden_detalle = detBase)
    (hfresh : ∀ x ∈ base, (x.id == oid) = false)
    (hfreshd : ∀ x ∈ detBase, (x.orden_id == oid) = false)
    (r : (Bool × String × Nat) × DB)
    (h : afterOrderIns o d isNew oid db2 = .ok r) :
    ∃ row2 : Orden, ∃ nd : List OrdenDetalle,
      r.1.2.2 = oid ∧
      r.2.ordenes = base ++ [row2] ∧
      findOrden r.2 oid = some row2 ∧
      row2.id = oid ∧
      row2.horario_entrega = row.horario_entrega ∧
      row2.direccion = row.direccion ∧
      row2.is_takeaway = row.is_takeaway ∧
      row2.usuario_id = row.usuario_id ∧
      r.2.orden_detalle = detBase ++ nd ∧
      (∀ x ∈ nd, x.orden_id = oid) ∧
      nd.length = (d.items.getD []).length +
        (if d.is_takeaway.getD true = false ∧
            (db2.productos.find? (fun p => toLowerStr p.nombre == "delivery")).isSome
          then 1 else 0) ∧
      (d.total = some (sumSub (d.items.getD [])) →
        row2.monto_total = some (sumDetallesFor r.2 oid)) := by
  rw [afterOrderIns] at h
  cases hdel : deliveryPhase o db2 oid d with
  | error e => rw [hdel] at h; cases h
  | ok pr =>
    obtain ⟨d2, db3⟩ := pr
    rw [hdel] at h
    dsimp only at h
    cases hins : insertDetalles o db3 oid (d2.items.getD []) 0 with
    | error e => rw [hins] at h; cases h
    | ok db4 =>
      rw [hins] at h
      dsimp only at h
      by_cases hc : o.commitQ = true
      · rw [if_pos hc] at h; cases h
      rw [if_neg hc] at h
      injection h with h
      subst h
      obtain ⟨ho4, hp4, hl4, hn4, nd, hnd4, hlen, hoidall, hsubmap⟩ :=
        insertDetalles_ok o oid (d2.items.getD []) db3 0 db4 hins
      rcases deliveryPhase_ok o db2 oid d d2 db3 hdel with
        ⟨hd2, hdb3, hreason⟩ | ⟨pb, its, t, hf, htk, hits, htot0, hd2, hdb3⟩
      · -- no augmentation: d2 is the original payload, db3 the original db
        subst hd2
        subst hdb3
        have hford : findOrden db4 oid = some row :=
          findOrden_append_fresh db4 base row oid (ho4.trans hord) hrowid hfresh
        have hifz : (if d2.is_takeaway.getD true = false ∧
            (db3.productos.find? (fun p => toLowerStr p.nombre == "delivery")).isSome = true
            then 1 else 0) = 0 := by
          rcases hreason with hr | hr
          · rw [if_neg]
            intro hcon
            rw [hr] at hcon
            exact absurd hcon.1 (by simp)
          · rw [if_neg]
            intro hcon
            rw [hr] at hcon
            exact absurd hcon.2 (by simp)
        refine ⟨row, nd, rfl, ho4.trans hord, hford, hrowid, rfl, rfl, rfl, rfl,
          by rw [hnd4, hdet], hoidall, by rw [hifz]; simpa using hlen, ?_⟩
        intro htot
        have hsum : sumDetallesFor db4 oid = (nd.map (fun x => x.subtotal)).sum :=
          sumDetallesFor_append db4 detBase nd oid (by rw [hnd4, hdet]) hfreshd hoidall
        rw [hrowm, htot, hsum, hsubmap]
        rfl
      · -- Delivery appended: the persisted total was rewritten
        subst hd2
        subst hdb3
        have hmapbase : base.map (fun x => if x.id == oid
            then { x with monto_total := some (t + pb.precio_base) } else x) = base :=
          map_id_of_eq base _ (fun x hx => by simp [hfresh x hx])
        have hords4 : db4.ordenes
            = base ++ [{ row with monto_total := some (t + pb.precio_base) }] := by
          rw [ho4]
          show (db2.ordenes.map _) = _
          rw [hord, List.map_append, hmapbase, List.map_cons, List.map_nil]
          simp [hrowid]
        have hford : findOrden db4 oid
            = some { row with monto_total := some (t + pb.precio_base) } :=
          findOrden_append_fresh db4 base _ oid hords4 hrowid hfresh
        have hdet3 : db4.orden_detalle = detBase ++ nd := by
          rw [hnd4]
          show (db2.orden_detalle ++ nd) = _
          rw [hdet]
        refine ⟨{ row with monto_total := some (t + pb.precio_base) }, nd, rfl, hords4,
          hford, hrowid, rfl, rfl, rfl, rfl, hdet3, hoidall, ?_, ?_⟩
        · rw [hlen, hits]
          have hif1 : (if d.is_takeaway.getD true = false ∧
              (db2.productos.find? (fun p => toLowerStr p.nombre == "delivery")).isSome = true
              then 1 else 0) = 1 := by
            rw [if_pos ⟨htk, by rw [hf]; rfl⟩]
          rw [hif1]
          simp [deliveryItem]
        · intro htot
          have hts : t = sumSub its := by
            rw [htot0] at htot
            rw [hits] at htot
            simpa using htot
          have hsum : sumDetallesFor db4 oid = (nd.map (fun x => x.subtotal)).sum :=
            sumDetallesFor_append db4 detBase nd oid hdet3 hfreshd hoidall
          rw [hsum, hsubmap]
          show some (t + pb.precio_base) = _
          rw [hts]
          simp [sumSub, deliveryItem, List.map_append]

/-- Specification of a successful process_order body run: exactly one
order row and one line-item row per persisted payload item (plus the
synthetic Delivery item when due) are appended; the order row records
the delivery-time default; and when the payload total matches its
subtotal sum, the persisted total equals the persisted subtotal sum. -/
theorem process_order_body_ok (o : Oracle) (d : OrderData) (db : DB) (now : Int)
    (phone origen : String) (r : (Bool × String × Nat) × DB)
    (hwf : IdsWF db)
    (h : process_order_body o d db now phone origen = .ok r) :
    ∃ row2 : Orden, ∃ nd : List OrdenDetalle,
      r.2.ordenes = db.ordenes ++ [row2] ∧
      findOrden r.2 r.1.2.2 = some row2 ∧
      row2.id = r.1.2.2 ∧
      row2.horario_entrega = some (d.horario_entrega.getD "Entrega inmediata") ∧
      row2.direccion = (if d.is_takeaway.getD true then none else d.direccion) ∧
      r.2.orden_detalle = db.orden_detalle ++ nd ∧
      (∀ x ∈ nd, x.orden_id = r.1.2.2) ∧
      nd.length = (d.items.getD []).length +
        (if d.is_takeaway.getD true = false ∧
            (db.productos.find? (fun p => toLowerStr p.nombre == "delivery")).isSome
          then 1 else 0) ∧
      (d.total = some (sumSub (d.items.getD [])) →
        row2.monto_total = some (sumDetallesFor r.2 r.1.2.2)) := by
  rw [process_order_body] at h
  by_cases h0 : o.userQ = true
  · rw [if_pos h0] at h; cases h
  rw [if_neg h0] at h
  dsimp only at h
  rw [afterUser] at h
  by_cases h1 : (!(getOrCreateUser db now (cleanPhone phone) origen).2.1 && o.nameQ) = true
  · rw [if_pos h1] at h; cases h
  rw [if_neg h1] at h
  by_cases h2 : o.orderIns = true
  · rw [if_pos h2] at h; cases h
  rw [if_neg h2] at h
  dsimp only at h
  obtain ⟨hgp, hgl, hgo, hgd, hgn⟩ := getOrCreateUser_spec db now (cleanPhone phone) origen
  obtain ⟨hr1, hro, hrd, hrp, hrn⟩ :=
    insertOrderRow_spec (getOrCreateUser db now (cleanPhone phone) origen).2.2 now
      (getOrCreateUser db now (cleanPhone phone) origen).1 origen d
  have hfresh : ∀ x ∈ db.ordenes,
      (x.id == (insertOrderRow (getOrCreateUser db now (cleanPhone phone) origen).2.2 now
        (getOrCreateUser db now (cleanPhone phone) origen).1 origen d).1) = false := by
    intro x hx
    have hlt := hwf.1 x hx
    rw [hr1]
    have : x.id ≠ (getOrCreateUser db now (cleanPhone phone) origen).2.2.nextRowId := by omega
    simpa using this
  have hfreshd : ∀ x ∈ db.orden_detalle,
      (x.orden_id == (insertOrderRow (getOrCreateUser db now (cleanPhone phone) origen).2.2 now
        (getOrCreateUser db now (cleanPhone phone) origen).1 origen d).1) = false := by
    intro x hx
    have hlt := hwf.2 x hx
    rw [hr1]
    have : x.orden_id ≠ (getOrCreateUser db now (cleanPhone phone) origen).2.2.nextRowId := by
      omega
    simpa using this
  obtain ⟨row2, nd, hroid, hords, hfind, hid, hhor, hdir, _, _, hdet, hall, hlen, hmont⟩ :=
    afterOrderIns_ok o d (getOrCreateUser db now (cleanPhone phone) origen).2.1
      (insertOrderRow (getOrCreateUser db now (cleanPhone phone) origen).2.2 now
        (getOrCreateUser db now (cleanPhone phone) origen).1 origen d).1
      (insertOrderRow (getOrCreateUser db now (cleanPhone phone) origen).2.2 now
        (getOrCreateUser db now (cleanPhone phone) origen).1 origen d).2
      (getOrCreateUser db now (cleanPhone phone) origen).2.2.ordenes
      ⟨(getOrCreateUser db now (cleanPhone phone) origen).2.2.nextRowId,
        (getOrCreateUser db now (cleanPhone phone) origen).1,
        ((getOrCreateUser db now (cleanPhone phone) origen).2.2.locales.find?
          (fun l => l.nombre == "Vicente Lopez")).map (fun l => l.id),
        now, "pendiente", d.total, d.medio_pago, d.is_takeaway.getD true, some origen,
        d.observaciones, (if d.is_takeaway.getD true then none else d.direccion),
        some (d.horario_entrega.getD "Entrega inmediata")⟩
      db.orden_detalle hro (by rw [hr1]) rfl (by rw [hrd, hgd]) (by rw [hgo]; exact hfresh)
      (by exact hfreshd) r h
  rw [← hroid] at hfind hid hall hmont
  rw [hrp, hgp] at hlen
  refine ⟨row2, nd, by rw [hords, hgo], hfind, hid, hhor, hdir, hdet, hall, hlen, hmont⟩

/-- C2 counterexample: db_utils.process_order persists the payload
declared total as monto_total without checking it against the item
subtotals: payload pC2 declares total 999 over a single item of
subtotal 100, is accepted, and the stored order total 999 differs from
the stored subtotal sum 100. -/
theorem C2_counterexample :
    ((process_order noFail (.withOrder pC2) dbBase 0 "whatsapp:+111" "whatsapp").1).map
        (fun r => (r.1, r.2.2.2)) = some (true, some 10) ∧
    (findOrden (process_order noFail (.withOrder pC2) dbBase 0 "whatsapp:+111" "whatsapp").2
        10).map (fun x => x.monto_total) = some (some 999) ∧
    sumDetallesFor (process_order noFail (.withOrder pC2) dbBase 0 "whatsapp:+111" "whatsapp").2
        10 = 100 := by
  refine ⟨rfl, rfl, rfl⟩

/-- C2 amended: provided the payload total equals the sum of its item
subtotals, a successful db_utils.process_order leaves the persisted
order total equal to the sum of the persisted line-item subtotals,
including the synthetic Delivery item when the order is a delivery;
without that proviso the persisted total is simply the payload total
(see the counterexample). -/
theorem C2_amended (d : OrderData) (db : DB) (now : Int) (phone origen : String)
    (hwf : IdsWF db)
    (htot : d.total = some (sumSub (d.items.getD [])))
    (hs : ((process_order noFail (.withOrder d) db now phone origen).1).map (fun r => r.1)
      = some true) :
    ∃ oid : Nat,
      ((process_order noFail (.withOrder d) db now phone origen).1).map (fun r => r.2.2.2)
        = some (some oid) ∧
      (findOrden (process_order noFail (.withOrder d) db now phone origen).2 oid).map
          (fun x => x.monto_total)
        = some (some (sumDetallesFor
            (process_order noFail (.withOrder d) db now phone origen).2 oid)) := by
  cases hbody : process_order_body noFail d db now phone origen with
  | error e =>
    simp [process_order, hbody] at hs
  | ok r =>
    obtain ⟨row2, nd, hords, hfind, hid, hhor, hdir, hdet, hall, hlen, hmont⟩ :=
      process_order_body_ok noFail d db now phone origen r hwf hbody
    refine ⟨r.1.2.2, by simp [process_order, hbody], ?_⟩
    simp only [process_order, hbody]
    rw [hfind]
    simp [hmont htot]

/-- Witness for C2 amended at a concrete input: the consistent payload
pC1 persists total 2400 equal to its stored subtotal sum. -/
theorem C2_amended_witness :
    (findOrden (process_order noFail (.withOrder pC1) dbBase 0 "whatsapp:+111" "whatsapp").2
        10).map (fun x => x.monto_total)
      = some (some (sumDetallesFor
          (process_order noFail (.withOrder pC1) dbBase 0 "whatsapp:+111" "whatsapp").2 10)) := by
  obtain ⟨oid, hoid, hmap⟩ := C2_amended pC1 dbBase 0 "whatsapp:+111" "whatsapp"
    (by constructor <;> (intro x hx; simp [dbBase] at hx)) (by decide) (by decide)
  have h10 : some (some oid) = some (some 10) := hoid.symm.trans (by decide)
  have : oid = 10 := by simpa using h10
  subst this
  exact hmap

/-- C6 counterexample: an invocation whose text lacks the order marker
makes the Python function fall through and return None instead of the
(success, is_new_user, confirmation, order_id) tuple the claim
promises for every invocation. -/
theorem C6_counterexample :
    process_order noFail OrderText.noMarker dbBase 0 "whatsapp:+111" "whatsapp"
      = (none, dbBase) := rfl

/-- C6 amended: for every invocation whose text carries the order
marker, process_order returns the result tuple (never raising): on any
failure the database is returned unchanged (full rollback, no partial
order), and on success exactly one order row and all its line-item rows
(one per payload item plus the synthetic Delivery item when due) are
appended together. -/
theorem C6_amended (o : Oracle) (text : OrderText) (db : DB) (now : Int)
    (phone origen : String) (hwf : IdsWF db) (hm : text ≠ OrderText.noMarker) :
    ∃ t : Bool × Bool × String × Option Nat, ∃ db2 : DB,
      process_order o text db now phone origen = (some t, db2) ∧
      (t.1 = false → db2 = db) ∧
      (t.1 = true →
        ∃ d : OrderData, ∃ oid : Nat, ∃ row2 : Orden, ∃ nd : List OrdenDetalle,
          text = OrderText.withOrder d ∧
          t.2.2.2 = some oid ∧
          db2.ordenes = db.ordenes ++ [row2] ∧ row2.id = oid ∧
          db2.orden_detalle = db.orden_detalle ++ nd ∧
          (∀ x ∈ nd, x.orden_id = oid) ∧
          nd.length = (d.items.getD []).length +
            (if d.is_takeaway.getD true = false ∧
                (db.productos.find? (fun p => toLowerStr p.nombre == "delivery")).isSome
              then 1 else 0)) := by
  cases text with
  | noMarker => exact absurd rfl hm
  | badJson =>
    refine ⟨(false, false, "Expecting value", none), db, rfl, fun _ => rfl, ?_⟩
    intro hcon
    exact absurd hcon (by simp)
  | withOrder d =>
    cases hbody : process_order_body o d db now phone origen with
    | error e =>
      refine ⟨(false, false, e, none), db, by simp [process_order, hbody],
        fun _ => rfl, ?_⟩
      intro hcon
      exact absurd hcon (by simp)
    | ok r =>
      obtain ⟨row2, nd, hords, hfind, hid, hhor, hdir, hdet, hall, hlen, hmont⟩ :=
        process_order_body_ok o d db now phone origen r hwf hbody
      refine ⟨(true, r.1.1, r.1.2.1, some r.1.2.2), r.2, by simp [process_order, hbody],
        ?_, ?_⟩
      · intro hcon
        exact absurd hcon (by simp)
      · intro _
        exact ⟨d, r.1.2.2, row2, nd, rfl, rfl, hords, hid, hdet, hall, hlen⟩

/-- Witness for C6 amended at a concrete input: the run on payload pC1
yields a result tuple. -/
theorem C6_amended_witness :
    (process_order noFail (.withOrder pC1) dbBase 0 "whatsapp:+111" "whatsapp").1.isSome
      = true := by
  obtain ⟨t, db2, heq, -, -⟩ := C6_amended noFail (.withOrder pC1) dbBase 0 "whatsapp:+111"
    "whatsapp" (by constructor <;> (intro x hx; simp [dbBase] at hx)) (by simp)
  rw [heq]
  rfl

/-- C1 counterexample: the db_utils.process_order used by the Cloud API
path performs no duplicate check: with an order of the same user,
channel and total committed 60 seconds earlier, the identical payload
is accepted again and a second order is persisted. -/
theorem C1_counterexample :
    ((process_order noFail (.withOrder pC1) dbC1 60 "whatsapp:+111" "whatsapp").1).map
        (fun r => (r.1, r.2.2.2)) = some (true, some 10) ∧
    (process_order noFail (.withOrder pC1) dbC1 60 "whatsapp:+111" "whatsapp").2.ordenes.map
        (fun x => (x.usuario_id, x.monto_total, x.fecha_hora))
      = [(4, some 2400, 0), (4, some 2400, 60)] := by
  refine ⟨rfl, rfl⟩

/-- C1 amended: only the legacy whatsapp_server.process_order suppresses
duplicates: when an order of the same (phone, source) with monto_total
equal to the payload total exists within the last 5 minutes, it returns
the failure triple (False, False, None) — not a distinct Duplicate
value — and inserts nothing; the db_utils variant used by the Cloud API
persists the duplicate (see the counterexample). -/
theorem C1_amended (d : OrderData) (db : DB) (now : Int) (phone : String) (t : Int)
    (ht : d.total = some t)
    (hdup : hasDuplicate db now (cleanPhone phone) (server_source phone) t = true) :
    server_process_order noFailS (.withOrder d) db now phone
      = (some (false, false, none), db) := by
  have hb : server_body noFailS d db now phone = .ok .refuse := by
    rw [server_body, ht]
    dsimp only
    rw [if_neg (by simp [noFailS]), if_pos hdup]
  simp [server_process_order, hb]

/-- Witness for C1 amended at a concrete input: resubmitting total 2400
60 seconds after the stored order is refused without an insert. -/
theorem C1_amended_witness :
    server_process_order noFailS (.withOrder pC1) dbC1 60 "whatsapp:+111"
      = (some (false, false, none), dbC1) :=
  C1_amended pC1 dbC1 60 "whatsapp:+111" 2400 rfl (by decide)

/-- The item loop rejects as soon as the list holds an offending item. -/
theorem validateItemsLoop_reject (active : List (String × Int)) (its : List PayloadItem)
    (i : PayloadItem) (hmem : i ∈ its) (hoff : offendingB active i = true) :
    (validateItemsLoop active its).1 = false := by
  induction its with
  | nil => cases hmem
  | cons x rest ih =>
    by_cases hname : x.product.getD "" = ""
    · simp [validateItemsLoop, hname]
    · cases hlk : lookupProduct active (x.product.getD "") with
      | none => simp [validateItemsLoop, hname, hlk]
      | some p =>
        by_cases hprice : x.precio_unitario.getD 0 = p
        · by_cases hsub : x.subtotal.getD 0 = p * x.quantity.getD 0
          · have hxok : offendingB active x = false := by
              rw [offendingB, hlk]
              simp [hprice, hsub]
            have hstep : validateItemsLoop active (x :: rest)
                = validateItemsLoop active rest := by
              rw [validateItemsLoop]
              simp [hname, hlk, hprice, hsub]
            rw [hstep]
            rcases List.mem_cons.mp hmem with rfl | hmem2
            · rw [hxok] at hoff; cases hoff
            · exact ih hmem2
          · simp [validateItemsLoop, hname, hlk, hprice, hsub]
        · simp [validateItemsLoop, hname, hlk, hprice]
  
/-- When every item carries a nonempty name, the loop reports the first
failing check and that message names an offending item of the list. -/
theorem validateItemsLoop_names (active : List (String × Int)) (its : List PayloadItem)
    (hnames : ∀ j ∈ its, j.product.getD "" ≠ "")
    (i : PayloadItem) (hmem : i ∈ its) (hoff : offendingB active i = true) :
    ∃ q ∈ its, offendingB active q = true ∧
      namesProduct (validateItemsLoop active its).2 q := by
  induction its with
  | nil => cases hmem
  | cons x rest ih =>
    have hnx : x.product.getD "" ≠ "" := hnames x (List.mem_cons_self _ _)
    cases hlk : lookupProduct active (x.product.getD "") with
    | none =>
      refine ⟨x, List.mem_cons_self _ _, by rw [offendingB, hlk], ?_⟩
      have : (validateItemsLoop active (x :: rest)).2 = msgNotActive (x.product.getD "") := by
        rw [validateItemsLoop]
        simp [hnx, hlk]
      rw [this]
      exact Or.inl rfl
    | some p =>
      by_cases hprice : x.precio_unitario.getD 0 = p
      · by_cases hsub : x.subtotal.getD 0 = p * x.quantity.getD 0
        · have hxok : offendingB active x = false := by
            rw [offendingB, hlk]
            simp [hprice, hsub]
          have hstep : validateItemsLoop active (x :: rest)
              = validateItemsLoop active rest := by
            rw [validateItemsLoop]
            simp [hnx, hlk, hprice, hsub]
          rcases List.mem_cons.mp hmem with rfl | hmem2
          · rw [hxok] at hoff; cases hoff
          · obtain ⟨q, hq, hqoff, hqname⟩ :=
              ih (fun j hj => hnames j (List.mem_cons_of_mem _ hj)) hmem2
            refine ⟨q, List.mem_cons_of_mem _ hq, hqoff, ?_⟩
            rw [hstep]
            exact hqname
        · refine ⟨x, List.mem_cons_self _ _, ?_, ?_⟩
          · rw [offendingB, hlk]
            simp only [hprice]
            simp [hsub]
          · have : (validateItemsLoop active (x :: rest)).2
                = msgBadSubtotal (x.product.getD "") := by
              rw [validateItemsLoop]
              simp [hnx, hlk, hprice, hsub]
            rw [this]
            exact Or.inr (Or.inr rfl)
      · refine ⟨x, List.mem_cons_self _ _, ?_, ?_⟩
        · rw [offendingB, hlk]
          simp [hprice]
        · have : (validateItemsLoop active (x :: rest)).2
              = msgBadPrice (x.product.getD "") := by
            rw [validateItemsLoop]
            simp [hnx, hlk, hprice]
          rw [this]
          exact Or.inr (Or.inl rfl)

/-- C3 counterexample: a payload with an unknown product but no
observaciones key is rejected with the missing-field message, which
names no product, against the claim that the error names the offending
product; the rejection itself still writes zero rows. -/
theorem C3_counterexample :
    validate_order_items exActive pC3 = (false, msgNoObservaciones) ∧
    lookupProduct exActive "Nope" = none ∧
    msgNoObservaciones ≠ msgNotActive "Nope" ∧
    msgNoObservaciones ≠ msgBadPrice "Nope" ∧
    msgNoObservaciones ≠ msgBadSubtotal "Nope" ∧
    order_pipeline noFail exActive pC3 dbBase 0 "whatsapp:+111" "whatsapp"
      = (none, dbBase) := by
  refine ⟨rfl, rfl, by decide, by decide, by decide, rfl⟩

/-- C3 amended: a payload holding an offending item (unresolved product,
stale unit price, or inconsistent subtotal) always fails validation and
the pipeline writes zero order or item rows; the reported error names an
offending product provided the earlier presence checks pass (items,
observaciones and horario_entrega keys present, items carrying nonempty
product names) — otherwise the message cites the missing field instead. -/
theorem C3_amended (active : List (String × Int)) (d : OrderData) (its : List PayloadItem)
    (hits : d.items = some its) (i : PayloadItem) (hmem : i ∈ its)
    (hoff : offendingB active i = true) :
    ((validate_order_items active d).1 = false ∧
      ∀ (o : Oracle) (db : DB) (now : Int) (phone origen : String),
        order_pipeline o active d db now phone origen = (none, db)) ∧
    (d.observaciones ≠ none → d.horario_entrega ≠ none →
      (∀ j ∈ its, j.product.getD "" ≠ "") →
      ∃ q ∈ its, offendingB active q = true ∧
        namesProduct (validate_order_items active d).2 q) := by
  have hvfalse : (validate_order_items active d).1 = false := by
    cases hobs : d.observaciones with
    | none => simp [validate_order_items, hits, hobs]
    | some ob =>
      cases hhor : d.horario_entrega with
      | none => simp [validate_order_items, hits, hobs, hhor]
      | some hz =>
        simp only [validate_order_items, hits, hobs, hhor]
        exact validateItemsLoop_reject active its i hmem hoff
  refine ⟨⟨hvfalse, ?_⟩, ?_⟩
  · intro o db now phone origen
    simp [order_pipeline, hvfalse]
  · intro hobs hhor hnames
    cases hobs2 : d.observaciones with
    | none => exact absurd hobs2 hobs
    | some ob =>
      cases hhor2 : d.horario_entrega with
      | none => exact absurd hhor2 hhor
      | some hz =>
        have hval2 : (validate_order_items active d).2
            = (validateItemsLoop active its).2 := by
          rw [validate_order_items, hits, hobs2, hhor2]
        rw [hval2]
        exact validateItemsLoop_names active its hnames i hmem hoff

/-- Witness for C3 amended at a concrete input: a stale unit price 1300
against catalog price 1200 is rejected, writes nothing and the message
names the offending product. -/
theorem C3_amended_witness :
    (validate_order_items exActive pC3badprice).1 = false ∧
    order_pipeline noFail exActive pC3badprice dbBase 0 "whatsapp:+111" "whatsapp"
      = (none, dbBase) ∧
    namesProduct (validate_order_items exActive pC3badprice).2
      ⟨some "California Roll", some 1, some 1300, some 1300⟩ := by
  have h := C3_amended exActive pC3badprice
    [⟨some "California Roll", some 1, some 1300, some 1300⟩] rfl
    ⟨some "California Roll", some 1, some 1300, some 1300⟩ (List.mem_cons_self _ _)
    (by decide)
  refine ⟨h.1.1, h.1.2 noFail dbBase 0 "whatsapp:+111" "whatsapp", ?_⟩
  obtain ⟨q, hq, hqoff, hqname⟩ := h.2 (by decide) (by decide)
    (by intro j hj; simp at hj; subst hj; decide)
  have hq1 : q = ⟨some "California Roll", some 1, some 1300, some 1300⟩ :=
    List.mem_singleton.mp hq
  subst hq1
  exact hqname

/-- C7 counterexample: a delivery payload without an address passes
validation and is persisted with a NULL direccion (the address is not
mandatory anywhere in the code), and a payload without the
horario_entrega key is rejected by validation instead of being
defaulted to Entrega inmediata. -/
theorem C7_counterexample :
    validate_order_items exActive pC7deliv = (true, "") ∧
    ((process_order noFail (.withOrder pC7deliv) dbBase 0 "whatsapp:+111" "whatsapp").1).map
        (fun r => r.1) = some true ∧
    (findOrden (process_order noFail (.withOrder pC7deliv) dbBase 0 "whatsapp:+111"
        "whatsapp").2 10).map (fun x => x.direccion) = some none ∧
    validate_order_items exActive pC7nohor = (false, msgNoHorario) := by
  refine ⟨rfl, rfl, rfl, rfl⟩

/-- C7 amended: the observaciones key must be present or validation
rejects the order, and likewise the horario_entrega key — a missing
delivery-time field is rejected at validation rather than defaulted;
the Entrega inmediata default is applied only by the persist step of
db_utils.process_order, whose successful runs always store
horario_entrega = payload value or the default; a delivery address is
not validated and a delivery order without one persists with a NULL
address (see the counterexample). -/
theorem C7_amended :
    (∀ (active : List (String × Int)) (d : OrderData),
      d.observaciones = none → (validate_order_items active d).1 = false) ∧
    (∀ (active : List (String × Int)) (d : OrderData),
      d.horario_entrega = none → (validate_order_items active d).1 = false) ∧
    (∀ (d : OrderData) (db : DB) (now : Int) (phone origen : String),
      IdsWF db →
      ((process_order noFail (.withOrder d) db now phone origen).1).map (fun r => r.1)
        = some true →
      ∃ oid : Nat,
        ((process_order noFail (.withOrder d) db now phone origen).1).map (fun r => r.2.2.2)
          = some (some oid) ∧
        (findOrden (process_order noFail (.withOrder d) db now phone origen).2 oid).map
            (fun x => x.horario_entrega)
          = some (some (d.horario_entrega.getD "Entrega inmediata"))) := by
  refine ⟨?_, ?_, ?_⟩
  · intro active d hobs
    cases hit : d.items with
    | none => simp [validate_order_items, hit]
    | some its => simp [validate_order_items, hit, hobs]
  · intro active d hhor
    cases hit : d.items with
    | none => simp [validate_order_items, hit]
    | some its =>
      cases hobs : d.observaciones with
      | none => simp [validate_order_items, hit, hobs]
      | some ob => simp [validate_order_items, hit, hobs, hhor]
  · intro d db now phone origen hwf hs
    cases hbody : process_order_body noFail d db now phone origen with
    | error e => simp [process_order, hbody] at hs
    | ok r =>
      obtain ⟨row2, nd, hords, hfind, hid, hhor, hdir, hdet, hall, hlen, hmont⟩ :=
        process_order_body_ok noFail d db now phone origen r hwf hbody
      refine ⟨r.1.2.2, by simp [process_order, hbody], ?_⟩
      simp only [process_order, hbody]
      rw [hfind]
      simp [hhor]

/-- Witness for C7 amended at concrete inputs: both presence checks
fire, and the consistent payload persists the default delivery time. -/
theorem C7_amended_witness :
    (validate_order_items exActive pC3).1 = false ∧
    (validate_order_items exActive pC7nohor).1 = false ∧
    (findOrden (process_order noFail (.withOrder pC1) dbBase 5 "whatsapp:+111"
        "whatsapp").2 10).map (fun x => x.horario_entrega)
      = some (some "Entrega inmediata") := by
  refine ⟨C7_amended.1 exActive pC3 rfl, C7_amended.2.1 exActive pC7nohor rfl, ?_⟩
  obtain ⟨oid, hoid, hmap⟩ := C7_amended.2.2 pC1 dbBase 5 "whatsapp:+111" "whatsapp"
    (by constructor <;> (intro x hx; simp [dbBase] at hx)) (by decide)
  have h10 : some (some oid) = some (some 10) := hoid.symm.trans (by decide)
  have hoid10 : oid = 10 := by simpa using h10
  subst hoid10
  exact hmap
